import Mathlib

/-!
Shallow embedding of the OCR document-processing backend
(`backend/models.py`, `backend/services/ocr_service.py`,
`backend/services/pdf_service.py`, `backend/main.py`).

Confidences are modelled as rationals (the code only compares them and
takes minima), strings as Lean `String`, and Python's `str.strip` as
dropping whitespace from both ends of the character list. The per-document
store state is the content of the `{doc_id}_results.json` cache file,
modelled as `Option DocumentRecord` (`none` when the file does not exist).
-/

namespace OCRDocs

/-- Python `str.strip()` on the underlying character list: drop leading
whitespace, then trailing whitespace. -/
def stripList (l : List Char) : List Char :=
  List.rdropWhile Char.isWhitespace (List.dropWhile Char.isWhitespace l)

/-- Python `str.strip()` on `String`. -/
def pyStrip (s : String) : String :=
  ⟨stripList s.data⟩

/-- Model of `models.ExtractedField` (pydantic model): field name, value,
confidence, optional bounding box, page number. -/
structure ExtractedField where
  field_name : String
  value : String
  confidence : ℚ
  bounding_box : Option (List ℚ)
  page_number : Nat
deriving DecidableEq, Repr

/-- The pydantic constructor for `ExtractedField` as used in
`OCRService.extract_fields`: `confidence` carries the constraint
`Field(ge=0.0, le=1.0)`, so construction fails (raises a validation
error) when the confidence is out of `[0, 1]`; `bounding_box` is not
passed there and defaults to `None`. -/
def mkExtractedField (field_name value : String) (confidence : ℚ)
    (page_number : Nat) : Option ExtractedField :=
  if 0 ≤ confidence ∧ confidence ≤ 1 then
    some ⟨field_name, value, confidence, none, page_number⟩
  else
    none

/-- Model of `models.PageData` (pydantic model). -/
structure PageData where
  page_number : Nat
  extracted_fields : List ExtractedField
  page_image_url : Option String
  text_content : Option String
  processing_time : Option ℚ
deriving DecidableEq, Repr

/-- The per-document JSON record persisted in `{doc_id}_results.json`
(the shape written by `PDFService._save_results` and by the cache-update
code of `extract_fields_for_page`; the latter omits `processing_status`
and `created_at`, hence the `Option`s). -/
structure DocumentRecord where
  doc_id : String
  filename : String
  total_pages : Nat
  key_fields : List String
  pages : List PageData
  processing_status : Option String
  created_at : Option String
deriving DecidableEq, Repr

/-- Model of `OCRService.validate_extraction`: per field, strip the
value; if the stripped value is empty force confidence `0.0`; else if it
is shorter than 2 characters cap confidence at `0.5`; rebuild the field
(dropping the bounding box, which is not passed to the new
`ExtractedField`). -/
def validate_extraction : List ExtractedField → List ExtractedField
  | [] => []
  | field :: rest =>
    let cleaned_value := pyStrip field.value
    let confidence :=
      if cleaned_value = "" then 0
      else if cleaned_value.length < 2 then min field.confidence (1/2)
      else field.confidence
    ⟨field.field_name, cleaned_value, confidence, none, field.page_number⟩
      :: validate_extraction rest

/-- A parsed entry of the external capability's JSON response: either a
dict (whose `value` and `confidence` keys may be absent) or a bare
scalar. -/
inductive FieldPayload where
  | structured (value : Option String) (confidence : Option ℚ)
  | scalar (value : String)
deriving DecidableEq, Repr

/-- The value taken from a payload in `OCRService.extract_fields`:
`field_data.get('value', '')` for a dict, `str(field_data)` for a bare
scalar. -/
def payloadValue : FieldPayload → String
  | .structured v _ => v.getD ""
  | .scalar v => v

/-- The confidence taken from a payload in `OCRService.extract_fields`:
`field_data.get('confidence', 0.8)` for a dict, `0.8` for a bare
scalar. -/
def payloadConfidence : FieldPayload → ℚ
  | .structured _ c => c.getD (8/10)
  | .scalar _ => 8/10

/-- Outcome of the external call plus response parsing in
`OCRService.extract_fields`: the API call may raise, `json.loads` (or
`.items()` on a non-dict) may fail, or we get the parsed
field-name/payload entries. -/
inductive CallResult where
  | failure
  | unparseable
  | parsed (entries : List (String × FieldPayload))
deriving DecidableEq, Repr

/-- The field-building loop of `OCRService.extract_fields`: construct an
`ExtractedField` per entry; a pydantic validation error on any entry
aborts the whole loop (it is an exception). -/
def buildFields (entries : List (String × FieldPayload)) (page_number : Nat) :
    Option (List ExtractedField) :=
  match entries with
  | [] => some []
  | (field_name, payload) :: rest =>
    match mkExtractedField field_name (payloadValue payload)
        (payloadConfidence payload) page_number,
        buildFields rest page_number with
    | some f, some fs => some (f :: fs)
    | _, _ => none

/-- Model of `OCRService.extract_fields`: the whole body is wrapped in
`try/except`, and the handler returns `[]` — so a failed call, an
unparseable response, or a validation error while building the fields
all degrade to the empty list; nothing is raised to the caller. -/
def extract_fields (res : CallResult) (page_number : Nat) :
    List ExtractedField :=
  match res with
  | .failure => []
  | .unparseable => []
  | .parsed entries => (buildFields entries page_number).getD []

/-- The placeholder page appended by the cache-update loop of
`extract_fields_for_page` (`main.py`): empty fields, no image URL, no
text, no timing, 1-based page number. -/
def placeholderPage (page_number : Nat) : PageData :=
  ⟨page_number, [], none, none, none⟩

/-- The `while len(pages) < page_num` loop of `extract_fields_for_page`:
append placeholder pages (numbered `len+1`) until the array has at least
`page_num` entries. -/
def extendPages (pages : List PageData) (page_num : Nat) : List PageData :=
  pages ++ (List.range (page_num - pages.length)).map
    (fun i => placeholderPage (pages.length + i + 1))

/-- The cache read-modify step of `extract_fields_for_page`
(`main.py` lines 146-158): load the prior record if the cache file
exists, otherwise build a fresh one with `total_pages` set to the new
page's number and no `processing_status`/`created_at`; pad the page
array with placeholders up to `page_num`; then overwrite index
`page_num - 1` with the new page. Note the existing-record branch keeps
every other field of the record, `total_pages` included, exactly as
loaded. -/
def updateCache (prior : Option DocumentRecord) (doc_id filename : String)
    (page_num : Nat) (page_data : PageData) : DocumentRecord :=
  let doc :=
    match prior with
    | some d => d
    | none =>
      ⟨doc_id, filename, page_data.page_number, [], [], none, none⟩
  { doc with pages := (extendPages doc.pages page_num).set (page_num - 1) page_data }

/-- Model of `PDFService._save_results`: build the record written to the
cache file from the given pages (`total_pages` is `len(pages_data)`). -/
def save_results (doc_id filename : String) (pages_data : List PageData)
    (key_fields : List String) (now : String) : DocumentRecord :=
  ⟨doc_id, filename, pages_data.length, key_fields, pages_data,
    some "completed", some now⟩

/-- The store transition performed by `PDFService._save_results`: the
new record is written unconditionally — the prior state is never
consulted, there is no existence check before the write. -/
def create_store (_st : Option DocumentRecord) (doc_id filename : String)
    (pages_data : List PageData) (key_fields : List String) (now : String) :
    Option DocumentRecord :=
  some (save_results doc_id filename pages_data key_fields now)

/-- Model of `PDFService.process_page`: reject page numbers outside
`[1, pageCount]` (the PDF's page count) with `Invalid page number`,
wrapped by the method's `except` into `Error processing page: ...`;
otherwise build the `PageData` from the OCR result. `ocr` stands for the
fields `OCRService.extract_fields` returned for this page, `stem` for
the file stem and `text` for `page.get_text()`; the extracted fields
are stored exactly as returned. -/
def process_page (pageCount : Nat) (page_num : Nat)
    (ocr : List ExtractedField) (stem : String) (text : String) :
    Except String PageData :=
  if page_num < 1 ∨ pageCount < page_num then
    .error "Error processing page: Invalid page number"
  else
    .ok ⟨page_num, ocr,
      some ("/uploads/" ++ stem ++ ".pdf#page=" ++ toString page_num),
      some text, none⟩

/-- The `extract_fields_for_page` endpoint (`main.py` lines 133-165),
restricted to the store effects the claims are about: run
`process_page`; on failure the exception propagates and the cache is
never touched (the returned state is the prior state); on success merge
the page into the cache via `updateCache`. -/
def extract_fields_for_page (st : Option DocumentRecord)
    (pageCount : Nat) (doc_id filename : String) (page_num : Nat)
    (ocr : List ExtractedField) (text : String) :
    Except String PageData × Option DocumentRecord :=
  match process_page pageCount page_num ocr doc_id text with
  | .error e => (.error e, st)
  | .ok page_data =>
    (.ok page_data, some (updateCache st doc_id filename page_num page_data))

/-- Reading `GET /document/{doc_id}` restricted to the cache: return the
stored record, or a not-found error when there is none. -/
def read_document (st : Option DocumentRecord) : Except String DocumentRecord :=
  match st with
  | some d => .ok d
  | none => .error "Document not processed"

/-- The pages of an optional prior record (`[]` when no record exists). -/
def priorPages (st : Option DocumentRecord) : List PageData :=
  match st with
  | some d => d.pages
  | none => []

/-- Two `update_page` read-modify-write cycles on the same document, run
under one of two schedules. `serial`: the second cycle reads the state
the first one wrote. `interleaved`: both cycles read the prior state
before either writes (the awaits between the cache read and the cache
write in `extract_fields_for_page` permit exactly this), so the second
write overwrites the first — the first cycle's result is computed and
then discarded. -/
inductive Schedule where
  | serial
  | interleaved
deriving DecidableEq, Repr

/-- Run the two update cycles of a `Schedule` and return the final store
state. -/
def runTwoUpdates (sched : Schedule) (st : Option DocumentRecord)
    (doc_id filename : String) (n1 : Nat) (pd1 : PageData)
    (n2 : Nat) (pd2 : PageData) : Option DocumentRecord :=
  match sched with
  | .serial =>
    let afterFirst := some (updateCache st doc_id filename n1 pd1)
    some (updateCache afterFirst doc_id filename n2 pd2)
  | .interleaved =>
    let _overwrittenWrite := some (updateCache st doc_id filename n1 pd1)
    some (updateCache st doc_id filename n2 pd2)

/-- A raw OCR field whose value carries surrounding whitespace: the
validator is not a no-op on it. -/
def rawField : ExtractedField := ⟨"total", " a ", 1, none, 2⟩

/-- An existing stored record used to exercise duplicate creation. -/
def priorDoc : DocumentRecord :=
  ⟨"d", "old.pdf", 1, ["a"], [placeholderPage 1], some "completed", some "t0"⟩

/-- An existing two-page record, to be extended by an update for page 5. -/
def stalePrior : DocumentRecord :=
  ⟨"d", "d.pdf", 2, [], [placeholderPage 1, placeholderPage 2],
    some "completed", some "t0"⟩

/-- The page-5 record for the extension scenario. -/
def page5Data : PageData :=
  ⟨5, [], some "/uploads/d.pdf#page=5", some "txt", none⟩

/-- The page-1 record of the first (lost) concurrent update. -/
def lostPage : PageData := ⟨1, [], some "/uploads/d.pdf#page=1", some "t1", none⟩

/-- The page-2 record of the second concurrent update. -/
def keptPage : PageData := ⟨2, [], some "/uploads/d.pdf#page=2", some "t2", none⟩

/-- A prior one-page record for the frame-effect witness. -/
def c1prior : DocumentRecord :=
  ⟨"d", "a.pdf", 1, ["inv"], [placeholderPage 1], some "completed", some "t0"⟩

/-- A concrete page-2 record for the frame-effect witness. -/
def c1page : PageData := ⟨2, [], some "/uploads/a.pdf#page=2", some "hello", none⟩

/-! ## Helper lemmas -/

lemma dropWhile_of_rdropWhile_dropWhile (p : Char → Bool) (l : List Char) :
    List.dropWhile p (List.rdropWhile p (List.dropWhile p l)) =
      List.rdropWhile p (List.dropWhile p l) := by
  cases h : List.rdropWhile p (List.dropWhile p l) with
  | nil => simp
  | cons a t =>
    obtain ⟨u, hu⟩ := List.dropWhile_suffix (l := (List.dropWhile p l).reverse) p
    have hm : List.dropWhile p l = (a :: t) ++ u.reverse := by
      have h2 := congrArg List.reverse hu
      rw [List.reverse_append, List.reverse_reverse] at h2
      rw [← h2]
      congr 1
    have ha : p a = false := by
      have h3 := List.head?_dropWhile_not p l
      rw [hm] at h3
      simpa using h3
    simp [List.dropWhile_cons, ha]

lemma stripList_idem (l : List Char) : stripList (stripList l) = stripList l := by
  unfold stripList
  rw [dropWhile_of_rdropWhile_dropWhile, List.rdropWhile_idempotent]

lemma pyStrip_idem (s : String) : pyStrip (pyStrip s) = pyStrip s := by
  unfold pyStrip
  rw [stripList_idem]

lemma validate_extraction_length (fields : List ExtractedField) :
    (validate_extraction fields).length = fields.length := by
  induction fields with
  | nil => rfl
  | cons f rest ih => simp [validate_extraction, ih]

lemma buildFields_none_of_bad (entries : List (String × FieldPayload))
    (page_number : Nat)
    (h : ∃ e ∈ entries,
      ¬ (0 ≤ payloadConfidence e.2 ∧ payloadConfidence e.2 ≤ 1)) :
    buildFields entries page_number = none := by
  induction entries with
  | nil => simp at h
  | cons e rest ih =>
    obtain ⟨e', he', hbad⟩ := h
    simp only [List.mem_cons] at he'
    rcases he' with rfl | hmem
    · simp only [buildFields, mkExtractedField, if_neg hbad]
    · rw [buildFields, ih ⟨e', hmem, hbad⟩]
      cases mkExtractedField e.1 (payloadValue e.2) (payloadConfidence e.2)
        page_number <;> rfl

lemma extendPages_length (pages : List PageData) (n : Nat) :
    (extendPages pages n).length = max n pages.length := by
  simp [extendPages]
  omega

lemma extendPages_getElem?_lt (pages : List PageData) (n i : Nat)
    (h : i < pages.length) :
    (extendPages pages n)[i]? = pages[i]? := by
  simp [extendPages, List.getElem?_append, h]

lemma extendPages_getElem?_ge (pages : List PageData) (n i : Nat)
    (h1 : pages.length ≤ i) (h2 : i < n) :
    (extendPages pages n)[i]? = some (placeholderPage (i + 1)) := by
  rw [extendPages, List.getElem?_append_right (by simpa using h1),
    List.getElem?_map, List.getElem?_range (by omega)]
  have h3 : pages.length + (i - pages.length) + 1 = i + 1 := by omega
  simp [h3]

lemma updateCache_pages (st : Option DocumentRecord) (doc_id filename : String)
    (page_num : Nat) (page_data : PageData) :
    (updateCache st doc_id filename page_num page_data).pages =
      (extendPages (priorPages st) page_num).set (page_num - 1) page_data := by
  cases st <;> rfl

/-! ## Claim theorems -/

/-- Claim C1: for every document identifier, page number `n ≥ 1`, page
record and prior store state (including no record at all), `update_page`
followed by `read` yields a record whose page `n` (index `n-1`) is the
given record, whose other page slots are exactly the prior pages (with
absent pages filled in as placeholders and nothing beyond them), and
whose `filename` and `key_fields` are unchanged whenever a prior record
existed. -/
theorem update_page_then_read (st : Option DocumentRecord)
    (doc_id filename : String) (n : Nat) (pd : PageData) (hn : 1 ≤ n) :
    ∃ d, read_document (some (updateCache st doc_id filename n pd)) = .ok d ∧
      d.pages[n - 1]? = some pd ∧
      (∀ i, i ≠ n - 1 →
        d.pages[i]? =
          if i < (priorPages st).length then (priorPages st)[i]?
          else if i < max n (priorPages st).length then
            some (placeholderPage (i + 1))
          else none) ∧
      (∀ d0, st = some d0 →
        (updateCache st doc_id filename n pd).filename = d0.filename ∧
        (updateCache st doc_id filename n pd).key_fields = d0.key_fields) := by
  refine ⟨updateCache st doc_id filename n pd, rfl, ?_, ?_, ?_⟩
  · rw [updateCache_pages, List.getElem?_set]
    have hlen : n - 1 < (extendPages (priorPages st) n).length := by
      rw [extendPages_length]; omega
    simp [hlen]
  · intro i hi
    rw [updateCache_pages, List.getElem?_set_ne (by omega)]
    by_cases h1 : i < (priorPages st).length
    · rw [extendPages_getElem?_lt _ _ _ h1]
      simp [h1]
    · by_cases h2 : i < max n (priorPages st).length
      · rw [extendPages_getElem?_ge _ _ _ (by omega) (by omega)]
        simp [h1, h2]
      · rw [List.getElem?_eq_none (by rw [extendPages_length]; omega)]
        simp [h1, h2]
  · rintro d0 rfl
    constructor <;> rfl

/-- Witness for C1 at a concrete input: prior one-page record, update of
page 2. -/
theorem update_page_then_read_witness :
    1 ≤ 2 ∧
    (∃ d, read_document (some (updateCache (some c1prior) "d" "a.pdf" 2 c1page)) = .ok d ∧
      d.pages[2 - 1]? = some c1page ∧
      (∀ i, i ≠ 2 - 1 →
        d.pages[i]? =
          if i < (priorPages (some c1prior)).length then (priorPages (some c1prior))[i]?
          else if i < max 2 (priorPages (some c1prior)).length then
            some (placeholderPage (i + 1))
          else none) ∧
      (∀ d0, some c1prior = some d0 →
        (updateCache (some c1prior) "d" "a.pdf" 2 c1page).filename = d0.filename ∧
        (updateCache (some c1prior) "d" "a.pdf" 2 c1page).key_fields = d0.key_fields)) :=
  ⟨by decide, update_page_then_read (some c1prior) "d" "a.pdf" 2 c1page (by decide)⟩

/-- Claim C2 (failing input): on an existing record with 2 pages, an
`update_page` for page 5 extends the page array to length 5 but leaves
`total_pages` at 2, so the persisted record violates
`total_pages == len(pages)`. -/
theorem total_pages_stale_after_extension :
    (updateCache (some stalePrior) "d" "d.pdf" 5 page5Data).total_pages = 2 ∧
    (updateCache (some stalePrior) "d" "d.pdf" 5 page5Data).pages.length = 5 ∧
    (updateCache (some stalePrior) "d" "d.pdf" 5 page5Data).total_pages ≠
      (updateCache (some stalePrior) "d" "d.pdf" 5 page5Data).pages.length := by
  have e1 : (updateCache (some stalePrior) "d" "d.pdf" 5 page5Data).total_pages = 2 := rfl
  have e2 : (updateCache (some stalePrior) "d" "d.pdf" 5 page5Data).pages.length = 5 := rfl
  exact ⟨e1, e2, by omega⟩

/-- Claim C3: when the external call fails or its response cannot be
parsed as the expected structure, `extract_fields` returns the empty
field list (its return type is a plain list — no error is propagated to
the caller). -/
theorem extract_fields_degrades (res : CallResult) (page_number : Nat)
    (h : res = .failure ∨ res = .unparseable) :
    extract_fields res page_number = [] := by
  rcases h with rfl | rfl <;> rfl

/-- Witness for C3 at the concrete failed-call input. -/
theorem extract_fields_degrades_witness :
    (CallResult.failure = CallResult.failure ∨
      CallResult.failure = CallResult.unparseable) ∧
    extract_fields CallResult.failure 7 = [] :=
  ⟨Or.inl rfl, extract_fields_degrades CallResult.failure 7 (Or.inl rfl)⟩

/-- Claim C4 (counterexample): `process_page` stores the OCR fields as
returned, and on the field with value `" a "` (confidence 1) the stored
page is not validator-normalized — `validate_extraction` is not the
identity on its fields, so the stored field is not a fixed point of the
validator. -/
theorem process_page_skips_validation :
    process_page 3 2 [rawField] "d" "txt" =
      .ok ⟨2, [rawField], some "/uploads/d.pdf#page=2", some "txt", none⟩ ∧
    validate_extraction [rawField] ≠ [rawField] := by
  constructor
  · rfl
  · have h : pyStrip " a " = "a" := by decide
    simp [validate_extraction, rawField, h]

/-- Claim C4 (amended): for every valid page number and field list, the
single-page extraction operation stores the extracted fields exactly as
`extract_fields` returned them — `validate_extraction` is never applied
on this path (it is defined but has no caller). -/
theorem process_page_stores_raw (pageCount page_num : Nat)
    (ocr : List ExtractedField) (stem text : String)
    (h1 : 1 ≤ page_num) (h2 : page_num ≤ pageCount) :
    process_page pageCount page_num ocr stem text =
      .ok ⟨page_num, ocr,
        some ("/uploads/" ++ stem ++ ".pdf#page=" ++ toString page_num),
        some text, none⟩ := by
  rw [process_page, if_neg (by omega)]

/-- Witness for the amended C4 at page 2 of a 3-page document. -/
theorem process_page_stores_raw_witness :
    1 ≤ 2 ∧ 2 ≤ 3 ∧
    process_page 3 2 [rawField] "s" "t" =
      .ok ⟨2, [rawField],
        some ("/uploads/" ++ "s" ++ ".pdf#page=" ++ toString 2),
        some "t", none⟩ :=
  ⟨by decide, by decide,
    process_page_stores_raw 3 2 [rawField] "s" "t" (by decide) (by decide)⟩

/-- Claim C5: each field output by `validate_extraction` has its value
whitespace-trimmed; its confidence is `0` if the trimmed value is empty,
`min (input confidence) 0.5` if the trimmed value is shorter than 2
characters, and the input confidence otherwise; `field_name` and
`page_number` are unchanged; and the output has one field per input
field. -/
theorem validate_extraction_per_field (fields : List ExtractedField)
    (i : Nat) (f : ExtractedField) (h : fields[i]? = some f) :
    (validate_extraction fields).length = fields.length ∧
    (validate_extraction fields)[i]? = some
      ⟨f.field_name, pyStrip f.value,
        if pyStrip f.value = "" then 0
        else if (pyStrip f.value).length < 2 then min f.confidence (1/2)
        else f.confidence,
        none, f.page_number⟩ := by
  refine ⟨validate_extraction_length fields, ?_⟩
  induction fields generalizing i with
  | nil => simp at h
  | cons g rest ih =>
    cases i with
    | zero =>
      simp only [List.getElem?_cons_zero, Option.some.injEq] at h
      subst h
      simp [validate_extraction]
    | succ j =>
      simp only [List.getElem?_cons_succ] at h
      simpa [validate_extraction] using ih j h

/-- Witness for C5 on a singleton list with a padded one-character
value. -/
theorem validate_extraction_per_field_witness :
    ([rawField] : List ExtractedField)[0]? = some rawField ∧
    (validate_extraction [rawField]).length = [rawField].length ∧
    (validate_extraction [rawField])[0]? = some
      ⟨rawField.field_name, pyStrip rawField.value,
        if pyStrip rawField.value = "" then 0
        else if (pyStrip rawField.value).length < 2 then
          min rawField.confidence (1/2)
        else rawField.confidence,
        none, rawField.page_number⟩ :=
  ⟨rfl, validate_extraction_per_field [rawField] 0 rawField rfl⟩

/-- Claim C6: the field validator is idempotent — validating twice
yields the same field sequence as validating once. -/
theorem validate_extraction_idem (x : List ExtractedField) :
    validate_extraction (validate_extraction x) = validate_extraction x := by
  induction x with
  | nil => rfl
  | cons f rest ih =>
    have hpp : pyStrip (pyStrip f.value) = pyStrip f.value := pyStrip_idem _
    simp only [validate_extraction, hpp, ih]
    by_cases h1 : pyStrip f.value = ""
    · simp [h1]
    · by_cases h2 : (pyStrip f.value).length < 2
      · simp [h1, h2, min_assoc, min_self]
      · simp [h1, h2]

/-- Claim C7 (counterexample): with a record already stored for the
identifier, the whole-document create simply writes the new record — the
resulting state is the freshly built record, not the prior one, and no
failure of any kind is produced (the operation has no error outcome). -/
theorem create_clobbers :
    create_store (some priorDoc) "d" "d.pdf" [placeholderPage 1] ["b"] "t1" =
      some ⟨"d", "d.pdf", 1, ["b"], [placeholderPage 1], some "completed", some "t1"⟩ ∧
    create_store (some priorDoc) "d" "d.pdf" [placeholderPage 1] ["b"] "t1" ≠
      some priorDoc := by
  constructor
  · rfl
  · simp [create_store, save_results, priorDoc]

/-- Claim C7 (amended): whole-document create never fails and ignores
the prior state entirely: for every prior state — a record present or
not — reading after the create yields the newly built record. There is
no `AlreadyExists` check anywhere on this path. -/
theorem create_unconditional (st : Option DocumentRecord)
    (doc_id filename : String) (pages_data : List PageData)
    (key_fields : List String) (now : String) :
    read_document (create_store st doc_id filename pages_data key_fields now) =
      .ok ⟨doc_id, filename, pages_data.length, key_fields, pages_data,
        some "completed", some now⟩ := rfl

/-- Claim C8: a single-page extraction request for page 0 or page
`pageCount + 1` fails with the invalid-page-number error, and the stored
record is exactly the prior state — no write happens on the error
path. -/
theorem invalid_page_index_no_write (st : Option DocumentRecord)
    (pageCount : Nat) (doc_id filename : String)
    (ocr : List ExtractedField) (text : String) :
    extract_fields_for_page st pageCount doc_id filename 0 ocr text =
      (.error "Error processing page: Invalid page number", st) ∧
    extract_fields_for_page st pageCount doc_id filename (pageCount + 1) ocr text =
      (.error "Error processing page: Invalid page number", st) := by
  constructor
  · rfl
  · rw [extract_fields_for_page, process_page, if_pos (by omega)]

/-- Claim C9 (counterexample): under the interleaved schedule — both
read-modify-write cycles read the store before either writes, which the
unsynchronized cache code permits — the final record holds a placeholder
where the first update's page 1 should be: the first update is lost. -/
theorem interleaved_updates_lose_one :
    (runTwoUpdates .interleaved none "d" "d.pdf" 1 lostPage 2 keptPage).map
        (fun d => (d.pages[0]?, d.pages[1]?)) =
      some (some (placeholderPage 1), some keptPage) ∧
    placeholderPage 1 ≠ lostPage := by
  constructor
  · rfl
  · simp [placeholderPage, lostPage]

/-- Claim C9 (amended): only when the two update cycles are serialized —
the second reads the state the first wrote — do both page records
survive in the final store state. -/
theorem serial_updates_preserve_both (st : Option DocumentRecord)
    (doc_id filename : String) (n1 n2 : Nat) (pd1 pd2 : PageData)
    (h1 : 1 ≤ n1) (h2 : 1 ≤ n2) (hne : n1 ≠ n2) :
    ∃ d, runTwoUpdates .serial st doc_id filename n1 pd1 n2 pd2 = some d ∧
      d.pages[n1 - 1]? = some pd1 ∧ d.pages[n2 - 1]? = some pd2 := by
  refine ⟨_, rfl, ?_, ?_⟩
  · have hlen1 : n1 - 1 <
        (priorPages (some (updateCache st doc_id filename n1 pd1))).length := by
      simp [priorPages]
      rw [updateCache_pages, List.length_set, extendPages_length]
      omega
    rw [show (updateCache (some (updateCache st doc_id filename n1 pd1))
          doc_id filename n2 pd2).pages =
        (extendPages (priorPages (some (updateCache st doc_id filename n1 pd1)))
          n2).set (n2 - 1) pd2
      from updateCache_pages _ _ _ _ _]
    rw [List.getElem?_set_ne (by omega), extendPages_getElem?_lt _ _ _ hlen1]
    simp [priorPages]
    rw [updateCache_pages, List.getElem?_set]
    have hl : n1 - 1 < (extendPages (priorPages st) n1).length := by
      rw [extendPages_length]; omega
    simp [hl]
  · rw [updateCache_pages, List.getElem?_set]
    have hl : n2 - 1 <
        (extendPages (priorPages (some (updateCache st doc_id filename n1 pd1)))
          n2).length := by
      rw [extendPages_length]; omega
    simp [hl]

/-- Witness for the amended C9: serialized updates of pages 1 and 2 on
an empty store keep both pages. -/
theorem serial_updates_preserve_both_witness :
    (1 : Nat) ≤ 1 ∧ (1 : Nat) ≤ 2 ∧ (1 : Nat) ≠ 2 ∧
    (∃ d, runTwoUpdates .serial none "d" "d.pdf" 1 lostPage 2 keptPage = some d ∧
      d.pages[1 - 1]? = some lostPage ∧ d.pages[2 - 1]? = some keptPage) :=
  ⟨by decide, by decide, by decide,
    serial_updates_preserve_both none "d" "d.pdf" 1 2 lostPage keptPage
      (by decide) (by decide) (by decide)⟩

/-- Claim C10: if the parsed response contains even one entry whose
confidence is outside `[0, 1]` (so `ExtractedField` construction fails),
`extract_fields` returns the empty list for the whole page — every other
correctly extracted field of that page is discarded, because the
per-field validation error lands in the same degrade-to-empty handler as
an external-call failure. -/
theorem extract_fields_whole_page_discarded
    (entries : List (String × FieldPayload)) (page_number : Nat)
    (h : ∃ e ∈ entries,
      ¬ (0 ≤ payloadConfidence e.2 ∧ payloadConfidence e.2 ≤ 1)) :
    extract_fields (.parsed entries) page_number = [] := by
  rw [extract_fields, buildFields_none_of_bad entries page_number h]
  rfl

/-- Witness for C10: one good scalar entry plus one entry with
confidence `3/2`; the whole page degrades to `[]`. -/
theorem extract_fields_whole_page_discarded_witness :
    (∃ e ∈ [("good", FieldPayload.scalar "v"),
        ("bad", FieldPayload.structured (some "x") (some (3/2)))],
      ¬ (0 ≤ payloadConfidence e.2 ∧ payloadConfidence e.2 ≤ 1)) ∧
    extract_fields (.parsed [("good", FieldPayload.scalar "v"),
        ("bad", FieldPayload.structured (some "x") (some (3/2)))]) 4 = [] := by
  have hbad : ¬ (0 ≤ payloadConfidence
        (FieldPayload.structured (some "x") (some (3/2))) ∧
      payloadConfidence (FieldPayload.structured (some "x") (some (3/2))) ≤ 1) := by
    norm_num [payloadConfidence]
  refine ⟨⟨("bad", FieldPayload.structured (some "x") (some (3/2))), by simp, hbad⟩,
    extract_fields_whole_page_discarded _ 4
      ⟨("bad", FieldPayload.structured (some "x") (some (3/2))), by simp, hbad⟩⟩

end OCRDocs
